import Mathlib

/-!
Verification of the kedro_workshop data pipeline (Singapore HDB resale
price features).  The definitions below are a shallow embedding of the
Python sources:

* `src/kedro_workshop/pipelines/transform/geo_utils.py`
  (`calculate_distance_km`, `find_nearest_locations`)
* `src/kedro_workshop/pipelines/transform/nodes.py`
  (`_calculate_distance_km`, `_find_nearest_locations`, `create_feature_set`)
* `src/kedro_workshop/pipelines/clean/nodes.py`
  (`_parse_storey_range`, `_parse_remaining_lease`,
   `_handle_geodata_duplicates`, coordinate coalescing in
   `clean_mrt_geodata` / `clean_mall_geodata`)

Machine floats are modelled by real numbers (for the trigonometric
distance computation) and by rationals (for data plumbing where only
exact arithmetic, comparison and null-ness matter).  Python exceptions
are modelled with `Except String`.
-/

namespace KedroWorkshop

/-! ### Models of Python builtins used by the cleaners -/

/-- Whitespace recognised by Python's `str.strip()` / regex `\s` (ASCII part). -/
def isPySpace (c : Char) : Bool :=
  c = ' ' || c = '\t' || c = '\n' || c = '\x0d' || c = '\x0b' || c = '\x0c'

/-- Does `pat` occur at the start of `cs`?  Models Python's startswith test
used when scanning for a separator or a literal regex tail. -/
def leadsWith : List Char → List Char → Bool
  | [], _ => true
  | _ :: _, [] => false
  | a :: as, b :: bs => a = b && leadsWith as bs

/-- Does `pat` occur as a contiguous subsequence of `cs`?  Used to express
"the error message names the dataset". -/
def containsSeq (pat : List Char) : List Char → Bool
  | [] => leadsWith pat []
  | c :: rest => leadsWith pat (c :: rest) || containsSeq pat rest

/-- Numeric value of a list of decimal digit characters (most significant first). -/
def natOfDigits (cs : List Char) : Nat :=
  cs.foldl (fun acc c => acc * 10 + (c.toNat - '0'.toNat)) 0

/-- Model of Python's `int(str)` on a digit body (the part after an optional
sign): decimal digits possibly separated by single underscores, as accepted
by CPython (`"1_0"` parses to 10; a leading, trailing or doubled underscore
is rejected). -/
def pyDigitBody? (cs : List Char) : Option Nat :=
  if cs ≠ [] ∧ cs.head? ≠ some '_' ∧ cs.getLast? ≠ some '_' ∧
      (cs.zip cs.tail).all (fun p => !(p.1 = '_' && p.2 = '_')) ∧
      cs.all (fun c => c = '_' || c.isDigit) then
    some (natOfDigits (cs.filter Char.isDigit))
  else
    none

/-- Model of Python's `int(s)` for a string argument: surrounding whitespace
is stripped, a single leading sign is allowed, and the body must be a valid
digit string; any other shape raises `ValueError`, modelled by `none`. -/
def pyInt? (s : String) : Option Int :=
  let t := ((s.toList.dropWhile isPySpace).reverse.dropWhile isPySpace).reverse
  match t with
  | [] => none
  | c :: rest =>
    if c = '-' then (pyDigitBody? rest).map (fun n => -(n : Int))
    else if c = '+' then (pyDigitBody? rest).map (fun n => (n : Int))
    else (pyDigitBody? (c :: rest)).map (fun n => (n : Int))

/-- Model of Python's `int(x)` on a (rational-valued) number: truncation
toward zero. -/
def pyTrunc (q : ℚ) : Int :=
  if q < 0 then -(Int.floor (-q)) else Int.floor q

/-- One step of Python's `str.split(sep)` scan, with explicit fuel to make
the left-to-right non-overlapping scan structurally total.  `consHead`
prepends a character to the group currently being built. -/
def consHead (c : Char) : List (List Char) → List (List Char)
  | [] => [[c]]
  | g :: gs => (c :: g) :: gs

/-- Fuelled scan behind `pySplit`; with fuel `cs.length + 1` it consumes the
whole input. -/
def splitSepFuel (sep : List Char) : Nat → List Char → List (List Char)
  | 0, cs => [cs]
  | fuel + 1, cs =>
    if leadsWith sep cs then
      [] :: splitSepFuel sep fuel (cs.drop sep.length)
    else
      match cs with
      | [] => [[]]
      | c :: rest => consHead c (splitSepFuel sep fuel rest)

/-- Model of Python's `str.split(sep)` for a non-empty separator: scan left
to right, cutting the string at each non-overlapping occurrence of `sep`;
`"".split(sep) = [""]` and separators at the edges produce empty groups. -/
def pySplit (sep cs : List Char) : List (List Char) :=
  splitSepFuel sep (cs.length + 1) cs

/-- Model of Python's `min(xs, key=f)` on a non-empty list `x :: xs`: fold
from the left, replacing the current best only on a strictly smaller key, so
the first element attaining the minimum wins. -/
noncomputable def pyMin {α : Type} (f : α → ℝ) (x : α) (xs : List α) : α :=
  xs.foldl (fun best y => if f y < f best then y else best) x

/-! ### Transform-stage data model

Row types for the tables flowing through `transform/nodes.py` and
`transform/geo_utils.py`.  Coordinates entering the trigonometric distance
computation are real numbers; the nullable numeric columns of the cleaned
transaction table are `Option ℚ` (`none` models a pandas null). -/

/-- Row of the cleaned HDB address table (`hdb_addresses`):
join key `(block, street_name)` plus coordinates. -/
structure Address where
  block : String
  street_name : String
  latitude : ℝ
  longitude : ℝ

/-- Row of a cleaned geodata location table (`name`, `latitude`, `longitude`). -/
structure Location where
  name : String
  latitude : ℝ
  longitude : ℝ

/-- Candidate entry built in the inner loop of the nearest-neighbour search:
the Python dict `{"name": ..., "distance_km": ...}`. -/
structure Cand where
  name : String
  distance_km : ℝ

/-- Output row of the nearest-neighbour search: the source join key plus the
`nearest_{location_type}_name` / `nearest_{location_type}_distance_km`
columns (the `location_type` label only affects the column names, which are
structural here). -/
structure NearestRow where
  block : String
  street_name : String
  nearest_name : String
  nearest_distance_km : ℝ

/-- Row of the cleaned MRT station reference table; `create_feature_set`
only reads its `Name` column. -/
structure Station where
  Name : String

/-- Row of the cleaned transaction table as consumed by
`create_feature_set`; nullable numeric columns are `Option ℚ`. -/
structure Transaction where
  block : String
  street_name : String
  resale_price : Option ℚ
  floor_area_sqm : Option ℚ
  room_count : Option ℚ
  remaining_lease_months : Option ℚ
  storey_median : Option ℚ

/-- Row of `address_features`: the inner merge of the MRT and mall distance
tables on `(block, street_name)`. -/
structure AddressFeatures where
  block : String
  street_name : String
  nearest_mrt_name : String
  nearest_mrt_distance_km : ℝ
  nearest_mall_name : String
  nearest_mall_distance_km : ℝ

/-- Row of the assembled feature set right after the merge with the
transaction table (all columns, before projecting to the ML columns). -/
structure JoinedRow where
  block : String
  street_name : String
  resale_price : Option ℚ
  floor_area_sqm : Option ℚ
  room_count : Option ℚ
  remaining_lease_months : Option ℚ
  storey_median : Option ℚ
  nearest_mrt_name : String
  nearest_mrt_distance_km : ℝ
  nearest_mall_name : String
  nearest_mall_distance_km : ℝ

/-- Row of the final ML feature table: exactly the seven ML columns selected
by `create_feature_set`. -/
structure FeatureRow where
  resale_price : Option ℚ
  floor_area_sqm : Option ℚ
  room_count : Option ℚ
  remaining_lease_months : Option ℚ
  storey_median : Option ℚ
  nearest_mrt_distance_km : ℝ
  nearest_mall_distance_km : ℝ

/-! ### Haversine distance (geo_utils.py and its draft copy in nodes.py) -/

/-- Earth's radius in kilometers, `EARTH_RADIUS_KM` in `geo_utils.py`. -/
def EARTH_RADIUS_KM : ℝ := 6371

/-- Degrees to radians, `np.radians`. -/
noncomputable def radians (x : ℝ) : ℝ := x * Real.pi / 180

/-- Embedding of `calculate_distance_km` from `transform/geo_utils.py`:
Haversine great-circle distance in kilometers between two points given in
decimal degrees. -/
noncomputable def calculate_distance_km (lat1 lon1 lat2 lon2 : ℝ) : ℝ :=
  let lat1r := radians lat1
  let lon1r := radians lon1
  let lat2r := radians lat2
  let lon2r := radians lon2
  let dlat := lat2r - lat1r
  let dlon := lon2r - lon1r
  let a := Real.sin (dlat / 2) ^ 2 +
    Real.cos lat1r * Real.cos lat2r * Real.sin (dlon / 2) ^ 2
  let c := 2 * Real.arcsin (Real.sqrt a)
  c * EARTH_RADIUS_KM

/-- Embedding of the draft copy `_calculate_distance_km` from
`transform/nodes.py` (identical formula, Earth radius written as a local
literal `r = 6371`). -/
noncomputable def _calculate_distance_km (lat1 lon1 lat2 lon2 : ℝ) : ℝ :=
  let lat1r := radians lat1
  let lon1r := radians lon1
  let lat2r := radians lat2
  let lon2r := radians lon2
  let dlat := lat2r - lat1r
  let dlon := lon2r - lon1r
  let a := Real.sin (dlat / 2) ^ 2 +
    Real.cos lat1r * Real.cos lat2r * Real.sin (dlon / 2) ^ 2
  let c := 2 * Real.arcsin (Real.sqrt a)
  let r : ℝ := 6371
  c * r

/-! ### Nearest-neighbour search (geo_utils.py and its draft copy)

Both Python variants loop over the source rows; for each source they build
the candidate list over all targets and take `min(..., key=distance)`.
With a non-empty source and an empty target list, `min` raises
`ValueError: min() arg is an empty sequence` on the first source row.  With
an empty source list the loop produces an empty frame without columns and
the final logging line `result_df[f"nearest_{t}_distance_km"].mean()`
raises a `KeyError` naming the missing column.  Both failure modes are
modelled as `Except.error`.  -/

/-- Candidate built for one target: name plus Haversine distance to the
source (geo_utils variant, using `calculate_distance_km`). -/
noncomputable def candOf (src : Address) (t : Location) : Cand :=
  ⟨t.name, calculate_distance_km src.latitude src.longitude t.latitude t.longitude⟩

/-- Per-source body of `find_nearest_locations` for a non-empty target list
`t :: ts`: take the first-minimum candidate and emit the output row. -/
noncomputable def nearestRowOf (src : Address) (t : Location) (ts : List Location) : NearestRow :=
  let nearest := pyMin Cand.distance_km (candOf src t) (ts.map (candOf src))
  ⟨src.block, src.street_name, nearest.name, nearest.distance_km⟩

/-- Message of CPython's `ValueError` when `min` is applied to an empty
sequence. -/
def emptyMinMsg : String := "min() arg is an empty sequence"

/-- Message of the `KeyError` raised when the average-distance logging line
indexes the missing distance column of an empty result frame. -/
def keyErrorMsg (location_type : String) : String :=
  "KeyError: 'nearest_" ++ location_type ++ "_distance_km'"

/-- Embedding of `find_nearest_locations` from `transform/geo_utils.py`. -/
noncomputable def find_nearest_locations
    (source_locations : List Address) (target_locations : List Location)
    (location_type : String) : Except String (List NearestRow) :=
  match source_locations, target_locations with
  | [], _ => Except.error (keyErrorMsg location_type)
  | _ :: _, [] => Except.error emptyMinMsg
  | _ :: _, t :: ts =>
    Except.ok (source_locations.map (fun src => nearestRowOf src t ts))

/-- Candidate built for one target in the draft copy in `transform/nodes.py`
(using `_calculate_distance_km`). -/
noncomputable def candOfDraft (src : Address) (t : Location) : Cand :=
  ⟨t.name, _calculate_distance_km src.latitude src.longitude t.latitude t.longitude⟩

/-- Per-source body of `_find_nearest_locations` for a non-empty target
list. -/
noncomputable def nearestRowOfDraft (src : Address) (t : Location) (ts : List Location) : NearestRow :=
  let nearest := pyMin Cand.distance_km (candOfDraft src t) (ts.map (candOfDraft src))
  ⟨src.block, src.street_name, nearest.name, nearest.distance_km⟩

/-- Embedding of the draft copy `_find_nearest_locations` from
`transform/nodes.py` (the variant actually called by `create_feature_set`). -/
noncomputable def _find_nearest_locations
    (hdb_addresses : List Address) (locations : List Location)
    (location_type : String) : Except String (List NearestRow) :=
  match hdb_addresses, locations with
  | [], _ => Except.error (keyErrorMsg location_type)
  | _ :: _, [] => Except.error emptyMinMsg
  | _ :: _, t :: ts =>
    Except.ok (hdb_addresses.map (fun hdb => nearestRowOfDraft hdb t ts))

/-! ### Feature-set assembly (`create_feature_set` in transform/nodes.py) -/

/-- Model of `left.merge(right, on=key, how="inner")`: pandas keeps the left
row order and, for each left row, appends the combination with every right
row whose key matches, in right order. -/
def innerJoin {α β γ K : Type} [DecidableEq K]
    (ls : List α) (rs : List β) (lk : α → K) (rk : β → K)
    (comb : α → β → γ) : List γ :=
  ls.flatMap (fun l => (rs.filter (fun r => rk r = lk l)).map (comb l))

/-- Key of a nearest-distance row, the merge columns `["block", "street_name"]`. -/
def nrKey (r : NearestRow) : String × String := (r.block, r.street_name)

/-- Key of a transaction row, the merge columns `["block", "street_name"]`. -/
def txKey (t : Transaction) : String × String := (t.block, t.street_name)

/-- Key of an `address_features` row. -/
def afKey (a : AddressFeatures) : String × String := (a.block, a.street_name)

/-- Column-wise combination performed by the merge of the MRT and mall
distance tables. -/
def combineDistances (m : NearestRow) (l : NearestRow) : AddressFeatures :=
  ⟨m.block, m.street_name, m.nearest_name, m.nearest_distance_km,
    l.nearest_name, l.nearest_distance_km⟩

/-- Column-wise combination performed by the merge of the transaction table
with `address_features`. -/
def combineTxAf (t : Transaction) (a : AddressFeatures) : JoinedRow :=
  ⟨t.block, t.street_name, t.resale_price, t.floor_area_sqm, t.room_count,
    t.remaining_lease_months, t.storey_median,
    a.nearest_mrt_name, a.nearest_mrt_distance_km,
    a.nearest_mall_name, a.nearest_mall_distance_km⟩

/-- The operational-station filter at the top of `create_feature_set`:
`mrt_geodata[mrt_geodata["name"].isin(mrt_stations["Name"])]`. -/
def operationalMrt (mrt_stations : List Station) (mrt_geodata : List Location) :
    List Location :=
  mrt_geodata.filter (fun g => (mrt_stations.map Station.Name).contains g.name)

/-- The assembled feature set of `create_feature_set` up to and including
the merge with the transaction table (all columns still present, before the
projection to the ML columns). -/
noncomputable def featureSetJoined
    (hdb_resale_prices : List Transaction) (hdb_addresses : List Address)
    (mrt_stations : List Station) (mrt_geodata mall_geodata : List Location) :
    Except String (List JoinedRow) :=
  match _find_nearest_locations hdb_addresses (operationalMrt mrt_stations mrt_geodata)
      "mrt" with
  | Except.error e => Except.error e
  | Except.ok mrt_distances =>
    match _find_nearest_locations hdb_addresses mall_geodata "mall" with
    | Except.error e => Except.error e
    | Except.ok mall_distances =>
      let address_features :=
        innerJoin mrt_distances mall_distances nrKey nrKey combineDistances
      Except.ok (innerJoin hdb_resale_prices address_features txKey afKey combineTxAf)

/-- Projection of a joined row to the seven ML columns. -/
def projectMl (r : JoinedRow) : FeatureRow :=
  ⟨r.resale_price, r.floor_area_sqm, r.room_count, r.remaining_lease_months,
    r.storey_median, r.nearest_mrt_distance_km, r.nearest_mall_distance_km⟩

/-- The `dropna()` predicate on the projected frame: a row survives when
none of its nullable cells is null (the two distance columns are produced by
the joins and are never null). -/
def featureRowComplete (r : FeatureRow) : Bool :=
  r.resale_price.isSome && r.floor_area_sqm.isSome && r.room_count.isSome &&
    r.remaining_lease_months.isSome && r.storey_median.isSome

/-- Embedding of `create_feature_set` from `transform/nodes.py`: filter the
station geodata to operational stations, run the nearest-neighbour search
for stations and malls, inner-merge the two distance tables, inner-merge
the result onto the transactions, project to the seven ML columns and keep
complete cases only. -/
noncomputable def create_feature_set
    (hdb_resale_prices : List Transaction) (hdb_addresses : List Address)
    (mrt_stations : List Station) (mrt_geodata mall_geodata : List Location) :
    Except String (List FeatureRow) :=
  (featureSetJoined hdb_resale_prices hdb_addresses mrt_stations mrt_geodata
      mall_geodata).map
    (fun rows => (rows.map projectMl).filter featureRowComplete)

/-- Rows of a fallible table computation; an exception yields no rows. -/
def rowsOf {α : Type} : Except String (List α) → List α
  | Except.ok l => l
  | Except.error _ => []

/-! ### Transaction cleaner parsers (clean/nodes.py) -/

/-- Embedding of `_parse_storey_range` from `clean/nodes.py`.  The input is
a nullable string cell (`none` models a pandas null).  The code splits on
the literal `" TO "`, converts `parts[0]` and `parts[1]` with `int(...)`,
and returns the sentinel `(0, 0, 0.0)` when the split yields fewer than two
parts (`IndexError`) or either conversion fails (`ValueError`). -/
def _parse_storey_range (storey_range : Option String) : Int × Int × ℚ :=
  match storey_range with
  | none => (0, 0, 0)
  | some s =>
    match pySplit " TO ".toList s.toList with
    | p0 :: p1 :: _ =>
      match pyInt? (String.mk p0), pyInt? (String.mk p1) with
      | some min_storey, some max_storey =>
        (min_storey, max_storey, ((min_storey : ℚ) + (max_storey : ℚ)) / 2)
      | _, _ => (0, 0, 0)
    | _ => (0, 0, 0)

/-- Match of the regex `(\d+)\s*kw` at the very start of `cs`: a non-empty
maximal digit run, optional whitespace, then the literal `kw`; returns the
numeric value of the digit run. -/
def matchNumAt (kw : List Char) (cs : List Char) : Option Nat :=
  let ds := cs.takeWhile Char.isDigit
  if ds = [] then none
  else
    let rest := (cs.drop ds.length).dropWhile isPySpace
    if leadsWith kw rest then some (natOfDigits ds) else none

/-- Model of `re.search(r"(\d+)\s*kw", cs)`: the leftmost position where
the pattern matches wins, and its captured digit group is returned. -/
def reSearchNum (kw : List Char) : List Char → Option Nat
  | [] => none
  | c :: rest =>
    match matchNumAt kw (c :: rest) with
    | some n => some n
    | none => reSearchNum kw rest

/-- The dynamically typed `remaining_lease` cell: a string, a non-null
number, or missing (None/NaN). -/
inductive LeaseVal : Type
  | str (s : String)
  | num (q : ℚ)
  | missing

/-- Embedding of `_parse_remaining_lease` from `clean/nodes.py`.  Three
cases in source order: a string is scanned (lower-cased) for `(\d+)\s*year`
and `(\d+)\s*month` tokens, an absent token contributing 0; a non-null
number is whole years, `int(x * 12)`; a missing value with both
`lease_commence_date` and the sale date present uses the 99-year lease
term; anything else returns 0.  The sale date is modelled by its year,
the only part the code reads. -/
def _parse_remaining_lease (lease_str : LeaseVal)
    (lease_commence_date : Option ℚ) (sale_year : Option Int) : Int :=
  match lease_str with
  | LeaseVal.str s =>
    let ls := s.toList.map Char.toLower
    let years : Int := ((reSearchNum "year".toList ls).getD 0 : Nat)
    let months : Int := ((reSearchNum "month".toList ls).getD 0 : Nat)
    years * 12 + months
  | LeaseVal.num q => pyTrunc (q * 12)
  | LeaseVal.missing =>
    match lease_commence_date, sale_year with
    | some lcd, some sy =>
      let years_elapsed := sy - pyTrunc lcd
      let remaining_years := max 0 (99 - years_elapsed)
      remaining_years * 12
    | _, _ => 0

/-! ### Geodata cleaning (clean/nodes.py) -/

/-- Row of a geodata table at the duplicate-handling step: `name` plus
exact coordinates. -/
structure GeoRow where
  name : String
  latitude : ℚ
  longitude : ℚ
deriving DecidableEq

/-- Arithmetic mean of a list of rationals (pandas `agg("mean")` on a
non-empty group). -/
def listMean (qs : List ℚ) : ℚ := qs.sum / qs.length

/-- Strict lexicographic comparison of character lists by code point,
Python's `<` on strings. -/
def pyStrLt : List Char → List Char → Bool
  | [], [] => false
  | [], _ :: _ => true
  | _ :: _, [] => false
  | a :: as, b :: bs =>
    if a.toNat < b.toNat then true
    else if b.toNat < a.toNat then false
    else pyStrLt as bs

/-- Insert a string into a sorted list of strings (helper for the sorted
group keys produced by pandas `groupby`). -/
def insertSorted (a : String) : List String → List String
  | [] => [a]
  | b :: bs =>
    if pyStrLt b.toList a.toList then b :: insertSorted a bs else a :: b :: bs

/-- Insertion sort on strings, modelling the sorted group-key order of
pandas `groupby(sort=True)`. -/
def sortStrings (l : List String) : List String :=
  l.foldr insertSorted []

/-- Embedding of `_handle_geodata_duplicates` from `clean/nodes.py`: an
empty frame passes through; otherwise `groupby("name")` (pandas sorts the
group keys) aggregates each same-named group into one row carrying the mean
latitude and longitude. -/
def _handle_geodata_duplicates (df : List GeoRow) (location_type : String) :
    List GeoRow :=
  if df.length = 0 then df
  else
    let names := sortStrings (df.map GeoRow.name).dedup
    names.map (fun n =>
      let grp := df.filter (fun r => r.name = n)
      ⟨n, listMean (grp.map GeoRow.latitude), listMean (grp.map GeoRow.longitude)⟩)

/-- Flattened Overpass element as consumed by the geodata cleaners: the
dotted columns `lat`, `lon`, `center.lat`, `center.lon`, `tags.name`, any
of which may be null (or absent, which pandas also surfaces as null). -/
structure OverpassRow where
  lat : Option ℚ
  lon : Option ℚ
  centerLat : Option ℚ
  centerLon : Option ℚ
  tagsName : Option String
deriving DecidableEq

/-- Model of `df["lat"].fillna(center_lat)` on one cell: the direct value
wins; a null falls back to the centroid value. -/
def fillnaCoord (direct center : Option ℚ) : Option ℚ :=
  match direct with
  | some v => some v
  | none => center

/-- Row of the geodata table after coordinate standardization and column
selection (`[["tags.name", "latitude", "longitude"]]`, renamed). -/
structure StdGeoRow where
  name : Option String
  latitude : Option ℚ
  longitude : Option ℚ
deriving DecidableEq

/-- Coordinate-standardization step shared by `clean_mrt_geodata` and
`clean_mall_geodata` (and duplicated as
`process_overpass_geodata_coordinates` in `clean/utils.py`). -/
def standardRow (r : OverpassRow) : StdGeoRow :=
  ⟨r.tagsName, fillnaCoord r.lat r.centerLat, fillnaCoord r.lon r.centerLon⟩

/-- Keep a standardized row only when name, latitude and longitude are all
non-null (one row's worth of `dropna(subset=["name", "latitude",
"longitude"])`). -/
def keepComplete (r : StdGeoRow) : Option GeoRow :=
  match r.name, r.latitude, r.longitude with
  | some n, some la, some lo => some ⟨n, la, lo⟩
  | _, _, _ => none

/-- The `dropna(subset=["name", "latitude", "longitude"])` step followed by
the extraction into the non-nullable location schema. -/
def dropIncomplete (rows : List StdGeoRow) : List GeoRow :=
  rows.filterMap keepComplete

/-- Embedding of `clean_mrt_geodata` from `clean/nodes.py` after the JSON
flattening: standardize coordinates, select and rename columns, drop
incomplete rows, merge duplicates. -/
def clean_mrt_geodata (rows : List OverpassRow) : List GeoRow :=
  _handle_geodata_duplicates (dropIncomplete (rows.map standardRow)) "MRT"

/-! ### Properties of the `min(..., key=...)` model -/

/-- Characterization of `pyMin`: the chosen element splits the scanned list
`x :: xs`, its key is minimal over the whole list, and every element
strictly before it has a strictly larger key (Python's `min` keeps the
first minimum). -/
theorem pyMin_split {α : Type} (f : α → ℝ) (x : α) (xs : List α) :
    ∃ pre post, x :: xs = pre ++ pyMin f x xs :: post ∧
      (∀ y ∈ x :: xs, f (pyMin f x xs) ≤ f y) ∧
      (∀ y ∈ pre, f (pyMin f x xs) < f y) := by
  induction xs generalizing x with
  | nil =>
    refine ⟨[], [], rfl, ?_, by simp⟩
    intro y hy
    simp only [List.mem_singleton] at hy
    simp [pyMin, hy]
  | cons y ys ih =>
    have hfold : pyMin f x (y :: ys) = pyMin f (if f y < f x then y else x) ys := rfl
    by_cases h : f y < f x
    · obtain ⟨pre, post, hdec, hmin, hpre⟩ := ih y
      have hc : pyMin f x (y :: ys) = pyMin f y ys := by rw [hfold, if_pos h]
      refine ⟨x :: pre, post, ?_, ?_, ?_⟩
      · rw [hc, List.cons_append, ← hdec]
      · intro z hz
        rw [hc]
        rcases List.mem_cons.mp hz with hz | hz
        · subst hz
          exact le_of_lt (lt_of_le_of_lt (hmin y (List.mem_cons_self y ys)) h)
        · exact hmin z hz
      · intro z hz
        rw [hc]
        rcases List.mem_cons.mp hz with hz | hz
        · subst hz
          exact lt_of_le_of_lt (hmin y (List.mem_cons_self y ys)) h
        · exact hpre z hz
    · obtain ⟨pre, post, hdec, hmin, hpre⟩ := ih x
      have hc : pyMin f x (y :: ys) = pyMin f x ys := by rw [hfold, if_neg h]
      have hxy : f x ≤ f y := le_of_not_lt h
      cases pre with
      | nil =>
        have hx : x = pyMin f x ys := (List.cons_eq_cons.mp hdec).1
        have hpost : ys = post := (List.cons_eq_cons.mp hdec).2
        refine ⟨[], y :: ys, ?_, ?_, by simp⟩
        · rw [hc, ← hx]
          rfl
        · intro z hz
          rw [hc, ← hx]
          rcases List.mem_cons.mp hz with hz | hz
          · exact le_of_eq (congrArg f hz.symm)
          · rcases List.mem_cons.mp hz with hz | hz
            · subst hz; exact hxy
            · have := hmin z (List.mem_cons_of_mem x hz)
              rwa [← hx] at this
      | cons p pre' =>
        have hp : p = x := ((List.cons_eq_cons.mp hdec).1).symm
        have hys : ys = pre' ++ pyMin f x ys :: post := (List.cons_eq_cons.mp hdec).2
        have hcx : f (pyMin f x ys) < f x := by
          have := hpre p (List.mem_cons_self p pre')
          rwa [hp] at this
        have hcy : f (pyMin f x ys) < f y := lt_of_lt_of_le hcx hxy
        refine ⟨x :: y :: pre', post, ?_, ?_, ?_⟩
        · rw [hc, List.cons_append, List.cons_append, ← hys]
        · intro z hz
          rw [hc]
          rcases List.mem_cons.mp hz with hz | hz
          · rw [hz]; exact hmin x (List.mem_cons_self x ys)
          · rcases List.mem_cons.mp hz with hz | hz
            · rw [hz]; exact le_of_lt hcy
            · exact hmin z (List.mem_cons_of_mem x hz)
        · intro z hz
          rw [hc]
          rcases List.mem_cons.mp hz with hz | hz
          · rw [hz]; exact hcx
          · rcases List.mem_cons.mp hz with hz | hz
            · rw [hz]; exact hcy
            · exact hpre z (List.mem_cons_of_mem p hz)

/-- The element chosen by `pyMin` is one of the scanned elements. -/
theorem pyMin_mem {α : Type} (f : α → ℝ) (x : α) (xs : List α) :
    pyMin f x xs ∈ x :: xs := by
  obtain ⟨pre, post, hdec, -, -⟩ := pyMin_split f x xs
  rw [hdec]
  exact List.mem_append.mpr (Or.inr (List.mem_cons_self _ _))

/-- Squared sine is invariant under swapping the two endpoints of the
difference. -/
theorem sin_sq_half_sub_comm (x y : ℝ) :
    Real.sin ((x - y) / 2) ^ 2 = Real.sin ((y - x) / 2) ^ 2 := by
  rw [show (x - y) / 2 = -((y - x) / 2) by ring, Real.sin_neg]
  ring

/-- C5: the Haversine distance of `geo_utils.calculate_distance_km` is
symmetric in its two points, and the distance from a point to itself is 0,
for the formula `a = sin²(Δlat/2) + cos(lat1)·cos(lat2)·sin²(Δlon/2)`,
`distance = 2·R·asin(√a)`, `R = 6371`. -/
theorem calculate_distance_km_symm_self :
    (∀ lat1 lon1 lat2 lon2 : ℝ,
        calculate_distance_km lat1 lon1 lat2 lon2 =
          calculate_distance_km lat2 lon2 lat1 lon1) ∧
    (∀ lat lon : ℝ, calculate_distance_km lat lon lat lon = 0) := by
  constructor
  · intro lat1 lon1 lat2 lon2
    unfold calculate_distance_km
    dsimp only
    rw [sin_sq_half_sub_comm (radians lat2) (radians lat1),
      sin_sq_half_sub_comm (radians lon2) (radians lon1), mul_comm (Real.cos (radians lat1))]
  · intro lat lon
    unfold calculate_distance_km
    simp

/-- C10: the two draft variants of the core computations are extensionally
equal: `calculate_distance_km` (geo_utils.py) and `_calculate_distance_km`
(nodes.py) agree on every pair of points, and `find_nearest_locations`
(geo_utils.py) and `_find_nearest_locations` (nodes.py) return the same
rows for every source table, non-empty target table and label. -/
theorem draft_variants_agree :
    (∀ lat1 lon1 lat2 lon2 : ℝ,
        calculate_distance_km lat1 lon1 lat2 lon2 =
          _calculate_distance_km lat1 lon1 lat2 lon2) ∧
    (∀ (sources : List Address) (targets : List Location) (location_type : String),
        targets ≠ [] →
          find_nearest_locations sources targets location_type =
            _find_nearest_locations sources targets location_type) := by
  constructor
  · intro lat1 lon1 lat2 lon2
    rfl
  · intro sources targets location_type _
    cases sources <;> cases targets <;> rfl

/-- Witness for `draft_variants_agree` at a concrete one-source,
one-target instance. -/
theorem draft_variants_agree_witness :
    find_nearest_locations [⟨"1", "A", 0, 0⟩] [⟨"T", 1, 1⟩] "mrt" =
      _find_nearest_locations [⟨"1", "A", 0, 0⟩] [⟨"T", 1, 1⟩] "mrt" :=
  draft_variants_agree.2 [⟨"1", "A", 0, 0⟩] [⟨"T", 1, 1⟩] "mrt" (by simp)

/-- C1: for a non-empty target set, the nearest-neighbour search returns
one row per source row; each row carries the source's `(block,
street_name)` key together with the name and Haversine distance of a
target at minimal distance from that source, and the chosen target is the
first minimum in target iteration order (every strictly earlier target is
strictly farther). -/
theorem find_nearest_locations_spec
    (sources : List Address) (targets : List Location) (location_type : String)
    (hs : sources ≠ []) (ht : targets ≠ []) :
    ∃ rows, find_nearest_locations sources targets location_type = Except.ok rows ∧
      rows.length = sources.length ∧
      ∀ (i : ℕ) (hi : i < sources.length) (hi' : i < rows.length),
        rows[i].block = sources[i].block ∧
        rows[i].street_name = sources[i].street_name ∧
        ∃ t pre post, targets = pre ++ t :: post ∧
          rows[i].nearest_name = t.name ∧
          rows[i].nearest_distance_km =
            calculate_distance_km sources[i].latitude sources[i].longitude
              t.latitude t.longitude ∧
          (∀ u ∈ targets, rows[i].nearest_distance_km ≤
            calculate_distance_km sources[i].latitude sources[i].longitude
              u.latitude u.longitude) ∧
          (∀ u ∈ pre, rows[i].nearest_distance_km <
            calculate_distance_km sources[i].latitude sources[i].longitude
              u.latitude u.longitude) := by
  match sources, targets with
  | [], _ => exact absurd rfl hs
  | _ :: _, [] => exact absurd rfl ht
  | a :: as, t :: ts =>
    refine ⟨(a :: as).map (fun src => nearestRowOf src t ts), rfl, List.length_map _ _, ?_⟩
    intro i hi hi'
    have hrow : ((a :: as).map (fun src => nearestRowOf src t ts))[i] =
        nearestRowOf (a :: as)[i] t ts := List.getElem_map _
    set src := (a :: as)[i] with hsrc
    rw [hrow]
    refine ⟨rfl, rfl, ?_⟩
    obtain ⟨preC, postC, hdec, hmin, hpre⟩ :=
      pyMin_split Cand.distance_km (candOf src t) (ts.map (candOf src))
    set n := pyMin Cand.distance_km (candOf src t) (ts.map (candOf src)) with hn
    have hdec' : (t :: ts).map (candOf src) = preC ++ n :: postC := hdec
    obtain ⟨l₁, l₂, hsplit, hmap₁, hmap₂⟩ := List.map_eq_append.mp hdec'
    match l₂, hmap₂ with
    | [], hmap₂ => exact absurd hmap₂ (by simp)
    | t' :: post', hmap₂ =>
      have ht' : candOf src t' = n := (List.cons_eq_cons.mp hmap₂).1
      have hpost' : post'.map (candOf src) = postC := (List.cons_eq_cons.mp hmap₂).2
      refine ⟨t', l₁, post', hsplit, ?_, ?_, ?_, ?_⟩
      · show (nearestRowOf src t ts).nearest_name = t'.name
        unfold nearestRowOf
        rw [← hn, ← ht']
        rfl
      · show (nearestRowOf src t ts).nearest_distance_km = _
        unfold nearestRowOf
        rw [← hn, ← ht']
        rfl
      · intro u hu
        show (nearestRowOf src t ts).nearest_distance_km ≤ _
        unfold nearestRowOf
        rw [← hn]
        have hmem : candOf src u ∈ (t :: ts).map (candOf src) :=
          List.mem_map_of_mem _ (hsplit ▸ hu)
        exact hmin (candOf src u) hmem
      · intro u hu
        show (nearestRowOf src t ts).nearest_distance_km < _
        unfold nearestRowOf
        rw [← hn]
        have hmem : candOf src u ∈ preC := by
          rw [← hmap₁]
          exact List.mem_map_of_mem _ hu
        exact hpre (candOf src u) hmem

/-- Witness for `find_nearest_locations_spec` at a concrete one-source,
two-target instance. -/
theorem find_nearest_locations_spec_witness :
    ∃ rows, find_nearest_locations [⟨"1", "A", 0, 0⟩] [⟨"T", 1, 1⟩, ⟨"U", 2, 2⟩] "mrt" =
        Except.ok rows ∧
      rows.length = 1 ∧
      ∀ (i : ℕ) (hi : i < ([⟨"1", "A", 0, 0⟩] : List Address).length) (hi' : i < rows.length),
        rows[i].block = ([⟨"1", "A", 0, 0⟩] : List Address)[i].block ∧
        rows[i].street_name = ([⟨"1", "A", 0, 0⟩] : List Address)[i].street_name ∧
        ∃ t pre post, ([⟨"T", 1, 1⟩, ⟨"U", 2, 2⟩] : List Location) = pre ++ t :: post ∧
          rows[i].nearest_name = t.name ∧
          rows[i].nearest_distance_km =
            calculate_distance_km ([⟨"1", "A", 0, 0⟩] : List Address)[i].latitude
              ([⟨"1", "A", 0, 0⟩] : List Address)[i].longitude t.latitude t.longitude ∧
          (∀ u ∈ ([⟨"T", 1, 1⟩, ⟨"U", 2, 2⟩] : List Location),
            rows[i].nearest_distance_km ≤
              calculate_distance_km ([⟨"1", "A", 0, 0⟩] : List Address)[i].latitude
                ([⟨"1", "A", 0, 0⟩] : List Address)[i].longitude u.latitude u.longitude) ∧
          (∀ u ∈ pre, rows[i].nearest_distance_km <
            calculate_distance_km ([⟨"1", "A", 0, 0⟩] : List Address)[i].latitude
              ([⟨"1", "A", 0, 0⟩] : List Address)[i].longitude u.latitude u.longitude) :=
  find_nearest_locations_spec [⟨"1", "A", 0, 0⟩] [⟨"T", 1, 1⟩, ⟨"U", 2, 2⟩] "mrt"
    (by simp) (by simp)

/-- C2 (amended): with a non-empty source set and an empty target set the
nearest-neighbour search does raise an exception instead of returning rows
with null name or distance, but the exception is the `ValueError` coming
out of the builtin `min` on an empty candidate list, whose fixed message
names the condition (empty sequence) and not the dataset: it is the same
for every dataset label and contains neither "mrt" nor "mall". -/
theorem find_nearest_empty_targets_raises
    (sources : List Address) (location_type : String) (hs : sources ≠ []) :
    find_nearest_locations sources [] location_type = Except.error emptyMinMsg ∧
      containsSeq "mrt".toList emptyMinMsg.toList = false ∧
      containsSeq "mall".toList emptyMinMsg.toList = false := by
  match sources with
  | [] => exact absurd rfl hs
  | a :: as => exact ⟨rfl, by decide, by decide⟩

/-- Witness for `find_nearest_empty_targets_raises` at a concrete
one-source instance. -/
theorem find_nearest_empty_targets_raises_witness :
    find_nearest_locations [⟨"1", "A", 0, 0⟩] [] "mrt" = Except.error emptyMinMsg ∧
      containsSeq "mrt".toList emptyMinMsg.toList = false ∧
      containsSeq "mall".toList emptyMinMsg.toList = false :=
  find_nearest_empty_targets_raises [⟨"1", "A", 0, 0⟩] "mrt" (by simp)

/-- Counterexample to C2 as stated: at a concrete non-empty source set and
empty target set the raised error carries the generic builtin message
`"min() arg is an empty sequence"`, which does not contain the dataset
label `"mrt"` (nor any dataset name), so the error does not name the
dataset. -/
theorem find_nearest_empty_targets_cex :
    find_nearest_locations [⟨"1", "A", 0, 0⟩] [] "mrt" = Except.error emptyMinMsg ∧
      containsSeq "mrt".toList emptyMinMsg.toList = false :=
  ⟨rfl, by decide⟩

/-- Shape of a successful run of `_find_nearest_locations`: the target list
was non-empty and the result is the per-source map. -/
theorem find_nearest_ok_shape
    (sources : List Address) (targets : List Location) (location_type : String)
    (rows : List NearestRow)
    (h : _find_nearest_locations sources targets location_type = Except.ok rows) :
    ∃ t ts, targets = t :: ts ∧
      rows = sources.map (fun src => nearestRowOfDraft src t ts) := by
  match sources, targets with
  | [], _ => exact absurd h (by simp [_find_nearest_locations])
  | _ :: _, [] => exact absurd h (by simp [_find_nearest_locations])
  | a :: as, t :: ts =>
    refine ⟨t, ts, rfl, ?_⟩
    have : Except.ok (ε := String)
        ((a :: as).map (fun src => nearestRowOfDraft src t ts)) = Except.ok rows := h
    exact (Except.ok.injEq _ _ ▸ this).symm

/-- Every row emitted by a successful `_find_nearest_locations` run takes
its `nearest_name` from some target row. -/
theorem find_nearest_name_from_targets
    (sources : List Address) (targets : List Location) (location_type : String)
    (rows : List NearestRow)
    (h : _find_nearest_locations sources targets location_type = Except.ok rows) :
    ∀ r ∈ rows, ∃ g ∈ targets, r.nearest_name = g.name := by
  obtain ⟨t, ts, htgt, hrows⟩ := find_nearest_ok_shape sources targets location_type rows h
  subst htgt hrows
  intro r hr
  obtain ⟨src, hsrc, hr⟩ := List.mem_map.mp hr
  subst hr
  have hmem : pyMin Cand.distance_km (candOfDraft src t) (ts.map (candOfDraft src)) ∈
      (t :: ts).map (candOfDraft src) :=
    pyMin_mem Cand.distance_km (candOfDraft src t) (ts.map (candOfDraft src))
  obtain ⟨g, hg, hcand⟩ := List.mem_map.mp hmem
  refine ⟨g, hg, ?_⟩
  show (pyMin Cand.distance_km (candOfDraft src t) (ts.map (candOfDraft src))).name = g.name
  rw [← hcand]
  rfl

/-- C3: a station whose name occurs in the station geodata but not in the
cleaned operational station reference table (by name membership) never
appears as the `nearest_mrt_name` of any row of the assembled feature set,
for every input configuration. -/
theorem feature_set_no_non_operational_station
    (hdb_resale_prices : List Transaction) (hdb_addresses : List Address)
    (mrt_stations : List Station) (mrt_geodata mall_geodata : List Location)
    (name : String)
    (hgeo : name ∈ mrt_geodata.map Location.name)
    (hnot : name ∉ mrt_stations.map Station.Name) :
    ∀ row ∈ rowsOf (featureSetJoined hdb_resale_prices hdb_addresses mrt_stations
        mrt_geodata mall_geodata),
      row.nearest_mrt_name ≠ name := by
  intro row hrow
  unfold featureSetJoined at hrow
  cases e1 : _find_nearest_locations hdb_addresses (operationalMrt mrt_stations mrt_geodata)
      "mrt" with
  | error msg => rw [e1] at hrow; simp [rowsOf, Except.bind] at hrow
  | ok mrt_distances =>
    rw [e1] at hrow
    cases e2 : _find_nearest_locations hdb_addresses mall_geodata "mall" with
    | error msg => rw [e2] at hrow; simp [rowsOf, Except.bind] at hrow
    | ok mall_distances =>
      rw [e2] at hrow
      simp only [Except.bind, rowsOf, pure, Except.pure] at hrow
      obtain ⟨t, ht, hrow⟩ := List.mem_flatMap.mp hrow
      obtain ⟨a, ha, hcomb⟩ := List.mem_map.mp hrow
      have ha' : a ∈ innerJoin mrt_distances mall_distances nrKey nrKey combineDistances :=
        (List.mem_filter.mp ha).1
      obtain ⟨m, hm, ha''⟩ := List.mem_flatMap.mp ha'
      obtain ⟨l, hl, hcombd⟩ := List.mem_map.mp ha''
      have hname : row.nearest_mrt_name = m.nearest_name := by
        rw [← hcomb, ← hcombd]
        rfl
      obtain ⟨g, hg, hgname⟩ :=
        find_nearest_name_from_targets hdb_addresses
          (operationalMrt mrt_stations mrt_geodata) "mrt" mrt_distances e1 m hm
      have hgop : (mrt_stations.map Station.Name).contains g.name = true := by
        unfold operationalMrt at hg
        exact (List.mem_filter.mp hg).2
      have hgmem : g.name ∈ mrt_stations.map Station.Name := by
        simpa using hgop
      intro hEq
      apply hnot
      rw [← hEq, hname, hgname]
      exact hgmem

/-- Witness for `feature_set_no_non_operational_station`: a concrete
configuration with a planned station "P" present in the geodata but not in
the station reference table; no feature row names it. -/
theorem feature_set_no_non_operational_station_witness :
    (rowsOf (featureSetJoined
        [⟨"1", "A", some 1, some 1, some 1, some 1, some 1⟩]
        [⟨"1", "A", 0, 0⟩] [⟨"S"⟩] [⟨"S", 0, 0⟩, ⟨"P", 0, 0⟩]
        [⟨"M", 0, 0⟩])).all
      (fun row => decide (row.nearest_mrt_name ≠ "P")) = true :=
  List.all_eq_true.mpr (fun row hrow =>
    decide_eq_true
      (feature_set_no_non_operational_station
        [⟨"1", "A", some 1, some 1, some 1, some 1, some 1⟩]
        [⟨"1", "A", 0, 0⟩] [⟨"S"⟩] [⟨"S", 0, 0⟩, ⟨"P", 0, 0⟩] [⟨"M", 0, 0⟩]
        "P" (by decide) (by decide) row hrow))

/-- When the right-hand keys are pairwise distinct, at most one right row
matches a given key. -/
theorem filter_key_length_le_one {β K : Type} [DecidableEq K]
    (rs : List β) (rk : β → K) (hnd : (rs.map rk).Nodup) (k : K) :
    (rs.filter (fun r => rk r = k)).length ≤ 1 := by
  induction rs with
  | nil => simp
  | cons r rs ih =>
    have hnd' : (rs.map rk).Nodup := (List.nodup_cons.mp hnd).2
    have hnotin : rk r ∉ rs.map rk := (List.nodup_cons.mp hnd).1
    by_cases h : rk r = k
    · have hempty : rs.filter (fun r' => rk r' = k) = [] := by
        apply List.filter_eq_nil_iff.mpr
        intro r' hr'
        simp only [decide_eq_true_eq]
        intro hk
        exact hnotin (h ▸ hk ▸ List.mem_map_of_mem rk hr')
      rw [List.filter_cons_of_pos (by simpa using h), hempty]
      simp
    · rw [List.filter_cons_of_neg (by simpa using h)]
      exact ih hnd'

/-- An inner join against a right table with pairwise-distinct keys has at
most one output row per left row. -/
theorem innerJoin_length_le {α β γ K : Type} [DecidableEq K]
    (ls : List α) (rs : List β) (lk : α → K) (rk : β → K) (comb : α → β → γ)
    (hnd : (rs.map rk).Nodup) :
    (innerJoin ls rs lk rk comb).length ≤ ls.length := by
  induction ls with
  | nil => simp [innerJoin]
  | cons l ls ih =>
    have hstep : innerJoin (l :: ls) rs lk rk comb =
        ((rs.filter (fun r => rk r = lk l)).map (comb l)) ++ innerJoin ls rs lk rk comb := rfl
    rw [hstep, List.length_append, List.length_map, List.length_cons]
    have h1 := filter_key_length_le_one rs rk hnd (lk l)
    omega

/-- When the combining function exposes the left key and the right keys are
pairwise distinct, the key column of an inner join is a sublist of the left
key column. -/
theorem innerJoin_keys_sublist {α β γ K : Type} [DecidableEq K]
    (ls : List α) (rs : List β) (lk : α → K) (rk : β → K) (comb : α → β → γ)
    (gk : γ → K) (hgk : ∀ l r, gk (comb l r) = lk l)
    (hnd : (rs.map rk).Nodup) :
    ((innerJoin ls rs lk rk comb).map gk).Sublist (ls.map lk) := by
  induction ls with
  | nil => simp [innerJoin]
  | cons l ls ih =>
    have hstep : innerJoin (l :: ls) rs lk rk comb =
        ((rs.filter (fun r => rk r = lk l)).map (comb l)) ++ innerJoin ls rs lk rk comb := rfl
    rw [hstep, List.map_append, List.map_cons]
    have h1 := filter_key_length_le_one rs rk hnd (lk l)
    cases hfl : rs.filter (fun r => rk r = lk l) with
    | nil =>
      simp only [List.map_nil, List.nil_append]
      exact ih.cons (lk l)
    | cons r rest =>
      have hrest : rest = [] := by
        rw [hfl] at h1
        simp only [List.length_cons] at h1
        exact List.length_eq_zero.mp (by omega)
      subst hrest
      simp only [List.map_cons, List.map_nil, List.cons_append, List.nil_append, hgk]
      exact ih.cons₂ (lk l)

/-- The key column of a successful `_find_nearest_locations` run equals the
source key column. -/
theorem find_nearest_keys (sources : List Address) (targets : List Location)
    (location_type : String) (rows : List NearestRow)
    (h : _find_nearest_locations sources targets location_type = Except.ok rows) :
    rows.map nrKey = sources.map (fun a => (a.block, a.street_name)) := by
  obtain ⟨t, ts, -, hrows⟩ := find_nearest_ok_shape sources targets location_type rows h
  subst hrows
  rw [List.map_map]
  rfl

/-- C4 (amended): when the cleaned address table has pairwise-distinct
`(block, street_name)` keys, the final feature table — whose rows carry
exactly the seven ML columns by construction — has at most as many rows as
the input transaction table, and none of its nullable cells is null (its
two distance columns are non-null reals by construction). -/
theorem create_feature_set_shape
    (hdb_resale_prices : List Transaction) (hdb_addresses : List Address)
    (mrt_stations : List Station) (mrt_geodata mall_geodata : List Location)
    (hnd : (hdb_addresses.map (fun a => (a.block, a.street_name))).Nodup) :
    (rowsOf (create_feature_set hdb_resale_prices hdb_addresses mrt_stations
        mrt_geodata mall_geodata)).length ≤ hdb_resale_prices.length ∧
    ∀ r ∈ rowsOf (create_feature_set hdb_resale_prices hdb_addresses mrt_stations
        mrt_geodata mall_geodata),
      r.resale_price.isSome ∧ r.floor_area_sqm.isSome ∧ r.room_count.isSome ∧
        r.remaining_lease_months.isSome ∧ r.storey_median.isSome := by
  unfold create_feature_set
  cases e0 : featureSetJoined hdb_resale_prices hdb_addresses mrt_stations mrt_geodata
      mall_geodata with
  | error msg => exact ⟨by simp [rowsOf, Except.map], by simp [rowsOf, Except.map]⟩
  | ok jrows =>
    have hrows : rowsOf (Except.map
        (fun rows => (rows.map projectMl).filter featureRowComplete)
        (Except.ok (ε := String) jrows)) =
        (jrows.map projectMl).filter featureRowComplete := rfl
    rw [hrows]
    constructor
    · -- row-count bound: trace the joins back through `featureSetJoined`
      unfold featureSetJoined at e0
      cases e1 : _find_nearest_locations hdb_addresses
          (operationalMrt mrt_stations mrt_geodata) "mrt" with
      | error msg => rw [e1] at e0; exact absurd e0 (by simp)
      | ok mrt_distances =>
        rw [e1] at e0
        cases e2 : _find_nearest_locations hdb_addresses mall_geodata "mall" with
        | error msg => rw [e2] at e0; exact absurd e0 (by simp)
        | ok mall_distances =>
          rw [e2] at e0
          have hj : jrows = innerJoin hdb_resale_prices
              (innerJoin mrt_distances mall_distances nrKey nrKey combineDistances)
              txKey afKey combineTxAf := by
            have := (Except.ok.injEq _ _ ▸ e0)
            exact this.symm
          have hmk : mrt_distances.map nrKey =
              hdb_addresses.map (fun a => (a.block, a.street_name)) :=
            find_nearest_keys hdb_addresses (operationalMrt mrt_stations mrt_geodata)
              "mrt" mrt_distances e1
          have hlk : mall_distances.map nrKey =
              hdb_addresses.map (fun a => (a.block, a.street_name)) :=
            find_nearest_keys hdb_addresses mall_geodata "mall" mall_distances e2
          have hndl : (mall_distances.map nrKey).Nodup := by rw [hlk]; exact hnd
          have hafsub : ((innerJoin mrt_distances mall_distances nrKey nrKey
              combineDistances).map afKey).Sublist (mrt_distances.map nrKey) :=
            innerJoin_keys_sublist mrt_distances mall_distances nrKey nrKey
              combineDistances afKey (fun _ _ => rfl) hndl
          have hndaf : ((innerJoin mrt_distances mall_distances nrKey nrKey
              combineDistances).map afKey).Nodup :=
            hafsub.nodup (by rw [hmk]; exact hnd)
          calc ((jrows.map projectMl).filter featureRowComplete).length
              ≤ (jrows.map projectMl).length := List.length_filter_le _ _
            _ = jrows.length := List.length_map _ _
            _ ≤ hdb_resale_prices.length := by
                rw [hj]
                exact innerJoin_length_le hdb_resale_prices _ txKey afKey combineTxAf hndaf
    · intro r hr
      have := (List.mem_filter.mp hr).2
      simpa [featureRowComplete, and_assoc] using this

/-- Witness for `create_feature_set_shape` at a concrete configuration with
distinct address keys. -/
theorem create_feature_set_shape_witness :
    (rowsOf (create_feature_set
        [⟨"1", "A", some 1, some 1, some 1, some 1, some 1⟩]
        [⟨"1", "A", 0, 0⟩, ⟨"2", "B", 1, 1⟩]
        [⟨"S"⟩] [⟨"S", 0, 0⟩] [⟨"M", 0, 0⟩])).length ≤ 1 ∧
    ∀ r ∈ rowsOf (create_feature_set
        [⟨"1", "A", some 1, some 1, some 1, some 1, some 1⟩]
        [⟨"1", "A", 0, 0⟩, ⟨"2", "B", 1, 1⟩]
        [⟨"S"⟩] [⟨"S", 0, 0⟩] [⟨"M", 0, 0⟩]),
      r.resale_price.isSome ∧ r.floor_area_sqm.isSome ∧ r.room_count.isSome ∧
        r.remaining_lease_months.isSome ∧ r.storey_median.isSome :=
  create_feature_set_shape
    [⟨"1", "A", some 1, some 1, some 1, some 1, some 1⟩]
    [⟨"1", "A", 0, 0⟩, ⟨"2", "B", 1, 1⟩]
    [⟨"S"⟩] [⟨"S", 0, 0⟩] [⟨"M", 0, 0⟩] (by decide)

/-- Counterexample to C4 as stated: with a duplicated address key the inner
joins fan out, and one input transaction yields four feature rows — more
rows than the transaction table — so the bound does not hold for every
input configuration. -/
theorem create_feature_set_cex :
    ¬ ((rowsOf (create_feature_set
        [⟨"1", "A", some 1, some 1, some 1, some 1, some 1⟩]
        [⟨"1", "A", 0, 0⟩, ⟨"1", "A", 1, 1⟩]
        [⟨"S"⟩] [⟨"S", 0, 0⟩] [⟨"M", 0, 0⟩])).length ≤
      ([⟨"1", "A", some 1, some 1, some 1, some 1, some 1⟩] : List Transaction).length) := by
  decide

/-- C6 (amended): the storey-range parser maps a null cell to the sentinel;
it maps a string whose split on `" TO "` yields at least two parts, the
first two of which parse as Python integers, to
`(p0, p1, (p0 + p1) / 2)` — the trailing parts are ignored rather than
rejected — and it maps every other input to the sentinel `(0, 0, 0.0)`
without raising. -/
theorem parse_storey_range_spec (x : Option String) :
    (x = none → _parse_storey_range x = (0, 0, 0)) ∧
    (∀ (s : String) (p0 p1 : List Char) (rest : List (List Char)) (a b : Int),
      x = some s →
      pySplit " TO ".toList s.toList = p0 :: p1 :: rest →
      pyInt? (String.mk p0) = some a → pyInt? (String.mk p1) = some b →
      _parse_storey_range x = (a, b, ((a : ℚ) + (b : ℚ)) / 2)) ∧
    (∀ s : String, x = some s →
      (∀ (p0 p1 : List Char) (rest : List (List Char)),
        pySplit " TO ".toList s.toList = p0 :: p1 :: rest →
        pyInt? (String.mk p0) = none ∨ pyInt? (String.mk p1) = none) →
      _parse_storey_range x = (0, 0, 0)) := by
  refine ⟨?_, ?_, ?_⟩
  · intro h; subst h; rfl
  · intro s p0 p1 rest a b hx hsplit ha hb
    subst hx
    unfold _parse_storey_range
    dsimp only
    rw [hsplit]
    dsimp only
    rw [ha, hb]
  · intro s hx hfail
    subst hx
    unfold _parse_storey_range
    dsimp only
    cases hsplit : pySplit " TO ".toList s.toList with
    | nil => rfl
    | cons p0 parts =>
      cases parts with
      | nil => rfl
      | cons p1 rest =>
        dsimp only
        rcases hfail p0 p1 rest hsplit with h0 | h1
        · rw [h0]
        · rw [h1]
          cases pyInt? (String.mk p0) <;> rfl

/-- Witness for `parse_storey_range_spec`: the spec's own example
`"04 TO 06"` parses to `(4, 6, 5.0)`. -/
theorem parse_storey_range_spec_witness :
    _parse_storey_range (some "04 TO 06") = (4, 6, ((4 : ℚ) + 6) / 2) :=
  (parse_storey_range_spec (some "04 TO 06")).2.1 "04 TO 06" "04".toList "06".toList []
    4 6 rfl (by decide) (by decide) (by decide)

unseal Rat.add Rat.mul Rat.inv in
/-- Counterexample to C6 as stated: `"01 TO 02 TO 03"` is not of the form
`"NN TO MM"`, yet the parser does not return the sentinel: the split parts
beyond the second are ignored and the result is `(1, 2, 1.5)`. -/
theorem parse_storey_range_cex :
    _parse_storey_range (some "01 TO 02 TO 03") = (1, 2, (3 : ℚ) / 2) ∧
    _parse_storey_range (some "01 TO 02 TO 03") ≠ (0, 0, 0) := by
  constructor <;> decide

/-- Python's `int` truncation is the identity on integer-valued rationals. -/
theorem pyTrunc_intCast (n : Int) : pyTrunc (n : ℚ) = n := by
  unfold pyTrunc
  by_cases h : (n : ℚ) < 0
  · rw [if_pos h]
    rw [show -(n : ℚ) = ((-n : Int) : ℚ) by push_cast; ring, Int.floor_intCast]
    ring
  · rw [if_neg h, Int.floor_intCast]

/-- C7 (amended): the remaining-lease parser tries three cases in order.
A string is scanned for a years token and a months token and yields
`years*12 + months` with an absent token contributing 0 — in particular a
months-only string yields just the months, not 0.  A bare integer-valued
number yields `value*12`.  A missing value with both `lease_commence_date`
and the sale date present yields `max(0, 99 - (sale_year -
lease_commence_date)) * 12`.  Every remaining input yields 0.  The spec's
three examples are included. -/
theorem parse_remaining_lease_spec :
    (∀ (s : String) (lcd : Option ℚ) (sy : Option Int) (y m : Nat),
      reSearchNum "year".toList (s.toList.map Char.toLower) = some y →
      reSearchNum "month".toList (s.toList.map Char.toLower) = some m →
      _parse_remaining_lease (LeaseVal.str s) lcd sy = (y : Int) * 12 + (m : Int)) ∧
    (∀ (s : String) (lcd : Option ℚ) (sy : Option Int) (y : Nat),
      reSearchNum "year".toList (s.toList.map Char.toLower) = some y →
      reSearchNum "month".toList (s.toList.map Char.toLower) = none →
      _parse_remaining_lease (LeaseVal.str s) lcd sy = (y : Int) * 12) ∧
    (∀ (s : String) (lcd : Option ℚ) (sy : Option Int) (m : Nat),
      reSearchNum "year".toList (s.toList.map Char.toLower) = none →
      reSearchNum "month".toList (s.toList.map Char.toLower) = some m →
      _parse_remaining_lease (LeaseVal.str s) lcd sy = (m : Int)) ∧
    (∀ (s : String) (lcd : Option ℚ) (sy : Option Int),
      reSearchNum "year".toList (s.toList.map Char.toLower) = none →
      reSearchNum "month".toList (s.toList.map Char.toLower) = none →
      _parse_remaining_lease (LeaseVal.str s) lcd sy = 0) ∧
    (∀ (n : Int) (lcd : Option ℚ) (sy : Option Int),
      _parse_remaining_lease (LeaseVal.num (n : ℚ)) lcd sy = n * 12) ∧
    (∀ (lcd : ℚ) (sy : Int),
      _parse_remaining_lease LeaseVal.missing (some lcd) (some sy) =
        max 0 (99 - (sy - pyTrunc lcd)) * 12) ∧
    (∀ sy : Option Int, _parse_remaining_lease LeaseVal.missing none sy = 0) ∧
    (∀ lcd : Option ℚ, _parse_remaining_lease LeaseVal.missing lcd none = 0) ∧
    _parse_remaining_lease (LeaseVal.str "56 years 09 months") none none = 681 ∧
    _parse_remaining_lease LeaseVal.missing (some 1990) (some 2020) = 828 := by
  refine ⟨?_, ?_, ?_, ?_, ?_, ?_, ?_, ?_, by decide, by decide⟩
  · intro s lcd sy y m hy hm
    unfold _parse_remaining_lease
    dsimp only
    rw [hy, hm]
    rfl
  · intro s lcd sy y hy hm
    unfold _parse_remaining_lease
    dsimp only
    rw [hy, hm]
    rfl
  · intro s lcd sy m hy hm
    unfold _parse_remaining_lease
    dsimp only
    rw [hy, hm]
    simp
  · intro s lcd sy hy hm
    unfold _parse_remaining_lease
    dsimp only
    rw [hy, hm]
    simp
  · intro n lcd sy
    unfold _parse_remaining_lease
    dsimp only
    rw [show (n : ℚ) * 12 = ((n * 12 : Int) : ℚ) by push_cast; ring, pyTrunc_intCast]
  · intro lcd sy
    rfl
  · intro sy
    rfl
  · intro lcd
    cases lcd <;> rfl

/-- Witness for `parse_remaining_lease_spec`: the spec's example
`"56 years 09 months"` has a years token 56 and a months token 9, so the
string case gives `56*12 + 9`. -/
theorem parse_remaining_lease_spec_witness :
    _parse_remaining_lease (LeaseVal.str "56 years 09 months") none none =
      (56 : Int) * 12 + (9 : Int) :=
  parse_remaining_lease_spec.1 "56 years 09 months" none none 56 9
    (by decide) (by decide)

/-- Counterexample to C7 as stated: the months-only string `"09 months"`
contains no years token, so by the claim it should fall through to the
catch-all and yield 0; the code scans the months token independently and
yields 9. -/
theorem parse_remaining_lease_cex :
    _parse_remaining_lease (LeaseVal.str "09 months") none none = 9 ∧
    _parse_remaining_lease (LeaseVal.str "09 months") none none ≠ 0 := by
  constructor <;> decide

/-- Inserting one string into a list is a permutation of consing it. -/
theorem insertSorted_perm (a : String) (l : List String) :
    (insertSorted a l).Perm (a :: l) := by
  induction l with
  | nil => exact List.Perm.refl _
  | cons b bs ih =>
    unfold insertSorted
    by_cases h : pyStrLt b.toList a.toList
    · rw [if_pos h]
      exact (ih.cons b).trans (List.Perm.swap a b bs)
    · rw [if_neg h]

/-- The sorted group-key list is a permutation of the input list. -/
theorem sortStrings_perm (l : List String) : (sortStrings l).Perm l := by
  induction l with
  | nil => exact List.Perm.refl _
  | cons a l ih =>
    have hstep : sortStrings (a :: l) = insertSorted a (sortStrings l) := rfl
    rw [hstep]
    exact (insertSorted_perm a (sortStrings l)).trans (ih.cons a)

unseal Rat.add Rat.mul Rat.inv in
/-- C8: the geodata duplicate handler returns an empty table unchanged;
otherwise its output names are pairwise distinct and are exactly the input
names, and every output row carries the arithmetic mean latitude and
longitude of the input rows bearing its name; the spec's "Mustafa Centre"
example (two rows at (1.300, 103.850) and (1.302, 103.852) collapsing to
one row at (1.301, 103.851), written as exact fractions) is included. -/
theorem handle_geodata_duplicates_spec (df : List GeoRow) (location_type : String) :
    (df = [] → _handle_geodata_duplicates df location_type = df) ∧
    ((_handle_geodata_duplicates df location_type).map GeoRow.name).Nodup ∧
    (∀ n, n ∈ (_handle_geodata_duplicates df location_type).map GeoRow.name ↔
      n ∈ df.map GeoRow.name) ∧
    (∀ r ∈ _handle_geodata_duplicates df location_type,
      r.latitude = listMean ((df.filter (fun q => q.name = r.name)).map GeoRow.latitude) ∧
      r.longitude = listMean ((df.filter (fun q => q.name = r.name)).map GeoRow.longitude)) ∧
    _handle_geodata_duplicates
        [⟨"Mustafa Centre", 1300 / 1000, 103850 / 1000⟩,
          ⟨"Mustafa Centre", 1302 / 1000, 103852 / 1000⟩] "mall" =
      [⟨"Mustafa Centre", 1301 / 1000, 103851 / 1000⟩] := by
  refine ⟨?_, ?_, ?_, ?_, by decide⟩
  · intro h
    subst h
    rfl
  · cases df with
    | nil => simp [_handle_geodata_duplicates]
    | cons d ds =>
      unfold _handle_geodata_duplicates
      rw [if_neg (by simp)]
      rw [List.map_map]
      have hid : (GeoRow.name ∘ fun n =>
          (⟨n, listMean (((d :: ds).filter (fun r => r.name = n)).map GeoRow.latitude),
            listMean (((d :: ds).filter (fun r => r.name = n)).map GeoRow.longitude)⟩ :
            GeoRow)) = id := by
        funext n
        rfl
      rw [hid, List.map_id]
      exact ((sortStrings_perm ((d :: ds).map GeoRow.name).dedup).symm.nodup
        (List.nodup_dedup _))
  · intro n
    cases df with
    | nil => simp [_handle_geodata_duplicates]
    | cons d ds =>
      unfold _handle_geodata_duplicates
      rw [if_neg (by simp)]
      rw [List.map_map]
      have hid : (GeoRow.name ∘ fun n =>
          (⟨n, listMean (((d :: ds).filter (fun r => r.name = n)).map GeoRow.latitude),
            listMean (((d :: ds).filter (fun r => r.name = n)).map GeoRow.longitude)⟩ :
            GeoRow)) = id := by
        funext n
        rfl
      rw [hid, List.map_id]
      rw [(sortStrings_perm ((d :: ds).map GeoRow.name).dedup).mem_iff]
      exact List.mem_dedup
  · intro r hr
    cases df with
    | nil => simp [_handle_geodata_duplicates] at hr
    | cons d ds =>
      unfold _handle_geodata_duplicates at hr
      rw [if_neg (by simp)] at hr
      obtain ⟨n, hn, hbuild⟩ := List.mem_map.mp hr
      subst hbuild
      exact ⟨rfl, rfl⟩

/-- Witness for `handle_geodata_duplicates_spec`: the empty table passes
through unchanged. -/
theorem handle_geodata_duplicates_spec_witness :
    _handle_geodata_duplicates [] "mall" = [] :=
  (handle_geodata_duplicates_spec [] "mall").1 rfl

/-- C9: for every flattened geodata row, the standardized latitude is the
direct `lat` field when present and the nested `center.lat` otherwise
(same for longitude) — the direct point position always overrides the
centroid — and a row missing both fields for either coordinate is dropped
by the subsequent `dropna`. -/
theorem geodata_coordinate_standardization (r : OverpassRow) :
    ((∀ v, r.lat = some v → (standardRow r).latitude = some v) ∧
     (r.lat = none → (standardRow r).latitude = r.centerLat) ∧
     (∀ v, r.lon = some v → (standardRow r).longitude = some v) ∧
     (r.lon = none → (standardRow r).longitude = r.centerLon)) ∧
    ((r.lat = none ∧ r.centerLat = none) ∨ (r.lon = none ∧ r.centerLon = none) →
      keepComplete (standardRow r) = none) := by
  constructor
  · refine ⟨?_, ?_, ?_, ?_⟩
    · intro v hv
      show fillnaCoord r.lat r.centerLat = some v
      rw [hv]
      rfl
    · intro hv
      show fillnaCoord r.lat r.centerLat = r.centerLat
      rw [hv]
      rfl
    · intro v hv
      show fillnaCoord r.lon r.centerLon = some v
      rw [hv]
      rfl
    · intro hv
      show fillnaCoord r.lon r.centerLon = r.centerLon
      rw [hv]
      rfl
  · intro h
    rcases h with ⟨h1, h2⟩ | ⟨h1, h2⟩
    · have hlat : (standardRow r).latitude = none := by
        show fillnaCoord r.lat r.centerLat = none
        rw [h1, h2]
        rfl
      unfold keepComplete
      rw [hlat]
      cases (standardRow r).name <;> rfl
    · have hlon : (standardRow r).longitude = none := by
        show fillnaCoord r.lon r.centerLon = none
        rw [h1, h2]
        rfl
      unfold keepComplete
      rw [hlon]
      cases (standardRow r).name <;> cases (standardRow r).latitude <;> rfl

/-- Witness for `geodata_coordinate_standardization`: a row with a null
direct latitude falls back to its centroid latitude, and a row missing both
longitude fields is dropped. -/
theorem geodata_coordinate_standardization_witness :
    (standardRow ⟨none, some 5, some 1, some 2, some "A"⟩).latitude = some 1 ∧
    keepComplete (standardRow ⟨some 3, none, some 1, none, some "A"⟩) = none := by
  constructor
  · have h := ((geodata_coordinate_standardization
      ⟨none, some 5, some 1, some 2, some "A"⟩).1).2.1 rfl
    simpa using h
  · exact (geodata_coordinate_standardization
      ⟨some 3, none, some 1, none, some "A"⟩).2 (Or.inr ⟨rfl, rfl⟩)

end KedroWorkshop
